import Mathlib

/-!
Verification of the rustgbg-cli-quickstart filesystem-watcher utility.

The first part embeds `src/src/main.rs`: the `Events` enum, the main event
loop (a `match` over `notify::DebouncedEvent` that filters by requested kind
and renders one line per delivered event), and the operations-parsing loop of
`parse_arguments`.  Paths are modelled as strings (`path.display()` is the
identity in the model); `println!`/`eprintln!` become optional stdout/stderr
lines.

The second part models the debouncing and rename-correlation pipeline.  That
logic lives in the external `notify` crate, not in this repository's `src/`,
so it is modelled from the specification (see the doc comments starting
`Modelled from the spec:`).
-/

/-- Filesystem paths, rendered by `Display`; modelled as plain strings. -/
abbrev FsPath := String

/-- The `Events` enum of `src/src/main.rs` (lines 37-44): the five logical
event kinds a user can listen for. -/
inductive Events where
  | Create
  | Write
  | Chmod
  | Remove
  | Rename
deriving DecidableEq, Repr, Fintype

/-- `notify::DebouncedEvent` exactly as consumed by the main loop of
`src/src/main.rs` (lines 17-29).  The `Error` variant carries the rendered
error message and an optional path, matching `Error(error, Option<PathBuf>)`. -/
inductive DebouncedEvent where
  | NoticeWrite (path : FsPath)
  | NoticeRemove (path : FsPath)
  | Create (path : FsPath)
  | Write (path : FsPath)
  | Chmod (path : FsPath)
  | Remove (path : FsPath)
  | Rename (src dst : FsPath)
  | Rescan
  | Error (err : String) (path : Option FsPath)
deriving DecidableEq, Repr

/-- One iteration of the `for event in event_rx` loop body of
`src/src/main.rs` (lines 18-29), arm by arm.  The result is
`some (stdoutLine?, stderrLine?)`; a `none` result would model a panic in the
loop body, and the theorem on totality shows it never occurs: every
`DebouncedEvent` variant is covered by a non-panicking arm. -/
def handleEvent (events_listened_for : List Events) :
    DebouncedEvent → Option (Option String × Option String)
  | .NoticeWrite _ => some (none, none)
  | .NoticeRemove _ => some (none, none)
  | .Create path =>
      some (if Events.Create ∈ events_listened_for
            then some ("create " ++ path) else none, none)
  | .Write path =>
      some (if Events.Write ∈ events_listened_for
            then some ("write " ++ path) else none, none)
  | .Chmod path =>
      some (if Events.Chmod ∈ events_listened_for
            then some ("chmod " ++ path) else none, none)
  | .Remove path =>
      some (if Events.Remove ∈ events_listened_for
            then some ("remove " ++ path) else none, none)
  | .Rename f t =>
      some (if Events.Rename ∈ events_listened_for
            then some ("rename " ++ f ++ " => " ++ t) else none, none)
  | .Rescan => some (none, none)
  | .Error e none => some (none, some ("error: " ++ e))
  | .Error e (some path) => some (none, some ("error at " ++ path ++ ": " ++ e))

/-- The effect of one loop iteration: the optional stdout line and optional
stderr line printed for one received event. -/
def processEvent (events_listened_for : List Events) (ev : DebouncedEvent) :
    Option String × Option String :=
  (handleEvent events_listened_for ev).getD (none, none)

/-- The whole receive loop of `main` over a finite trace of received events:
concatenates the lines printed for each event, in order. -/
def mainLoop (events_listened_for : List Events) :
    List DebouncedEvent → List String × List String
  | [] => ([], [])
  | ev :: rest =>
      let out := processEvent events_listened_for ev
      let tail := mainLoop events_listened_for rest
      (out.1.toList ++ tail.1, out.2.toList ++ tail.2)

/-- `main` after the watcher is set up: runs the receive loop until the
channel closes (the trace ends), then prints `Notify has crashed` on stderr
and exits with status 1 (`src/src/main.rs` lines 31-34).  Result:
(stdout lines, stderr lines, exit status). -/
def runMain (events_listened_for : List Events) (events : List DebouncedEvent) :
    List String × List String × Nat :=
  let out := mainLoop events_listened_for events
  (out.1, out.2 ++ ["Notify has crashed"], 1)

/-- The operations-parsing loop of `parse_arguments` (`src/src/main.rs`
lines 93-110): builds the `events` vector from the `--operation` values. -/
def parseOperations (operations : List String) : List Events :=
  operations.foldl
    (fun events event_string =>
      match event_string with
      | "create" => events ++ [Events.Create]
      | "write" => events ++ [Events.Write]
      | "chmod" => events ++ [Events.Chmod]
      | "remove" => events ++ [Events.Remove]
      | "rename" => events ++ [Events.Rename]
      | "all" => events ++ [Events.Create, Events.Write, Events.Chmod,
                            Events.Remove, Events.Rename]
      | _ => events)
    []

/-- A logical event as described by the spec: one of the five reportable
kinds, with a destination path only for renames.  These are exactly the
`DebouncedEvent` variants that can produce a notification line. -/
inductive LogicalEvent where
  | Create (primary : FsPath)
  | Write (primary : FsPath)
  | Chmod (primary : FsPath)
  | Remove (primary : FsPath)
  | Rename (primary secondary : FsPath)
deriving DecidableEq, Repr

/-- The kind of a logical event. -/
def LogicalEvent.kind : LogicalEvent → Events
  | .Create _ => Events.Create
  | .Write _ => Events.Write
  | .Chmod _ => Events.Chmod
  | .Remove _ => Events.Remove
  | .Rename _ _ => Events.Rename

/-- The `DebouncedEvent` carrying a given logical event to the main loop. -/
def LogicalEvent.toDebounced : LogicalEvent → DebouncedEvent
  | .Create p => DebouncedEvent.Create p
  | .Write p => DebouncedEvent.Write p
  | .Chmod p => DebouncedEvent.Chmod p
  | .Remove p => DebouncedEvent.Remove p
  | .Rename a b => DebouncedEvent.Rename a b

/-- The notification line printed for a logical event, following the
`println!` format strings of the main loop. -/
def render : LogicalEvent → String
  | .Create p => "create " ++ p
  | .Write p => "write " ++ p
  | .Chmod p => "chmod " ++ p
  | .Remove p => "remove " ++ p
  | .Rename a b => "rename " ++ a ++ " => " ++ b

example : processEvent [Events.Write] (DebouncedEvent.Write "/a")
    = (some "write /a", none) := by decide
example : processEvent [Events.Write] (DebouncedEvent.Create "/a")
    = (none, none) := by decide
example : parseOperations ["all"]
    = [Events.Create, Events.Write, Events.Chmod, Events.Remove, Events.Rename] := by decide

/-! ## The debouncing and classification pipeline, modelled from the spec

The Debouncer and EventClassifier run inside the external `notify` crate
(`notify::watcher` is created in `src/src/main.rs` lines 8-12 with the
configured delay); their code is not under `src/`.  The definitions below are
therefore modelled from the specification, sections 4.1 and 4.2: a per-path
pending-state table whose entries hold the most recent relevant kind and a
deadline of last-activity-time plus quiescence; entries whose deadline has
elapsed are emitted as confirmed events and removed; rename halves are
correlated by arrival adjacency within the quiescence window, an unmatched
half degrading to Remove (orphaned RenameFrom) or Create (orphaned RenameTo);
Rescan and Error bypass debouncing, Error going to the error side channel.
Time is in milliseconds, modelled as `Nat`. -/

/-- Modelled from the spec: the `RawKind` of a raw change record (spec §3). -/
inductive RawKind where
  | NoticeWrite
  | NoticeRemove
  | Create
  | Write
  | Chmod
  | Remove
  | RenameFrom
  | RenameTo
  | Rescan
  | Error
deriving DecidableEq, Repr

/-- Modelled from the spec: a raw change record `{path, kind, timestamp}`
with the rename destination and error payload of spec §3, emitted by the
RawEventSource. -/
structure RawRecord where
  time : Nat
  path : FsPath
  kind : RawKind
  secondary : Option FsPath := none
  errMsg : Option String := none
deriving DecidableEq, Repr

/-- The four raw kinds that map 1:1 to an identically named logical kind
(spec §4.2). -/
def RawKind.isPlain : RawKind → Prop
  | .Create => True
  | .Write => True
  | .Chmod => True
  | .Remove => True
  | _ => False

instance (k : RawKind) : Decidable k.isPlain := by
  cases k <;> simp [RawKind.isPlain] <;> infer_instance

/-- Modelled from the spec: the classification a pending entry currently
carries.  The four plain kinds are kept as-is; `RenameFrom`/`RenameTo` are
uncorrelated rename halves; `RenamePair dest` is a correlated pair whose
entry is keyed by the source path. -/
inductive PendingClass where
  | Create
  | Write
  | Chmod
  | Remove
  | RenameFrom
  | RenameTo
  | RenamePair (dest : FsPath)
deriving DecidableEq, Repr

/-- The pending class recorded for a plain confirmed raw kind. -/
def plainClass : RawKind → PendingClass
  | .Create => PendingClass.Create
  | .Write => PendingClass.Write
  | .Chmod => PendingClass.Chmod
  | .Remove => PendingClass.Remove
  | .RenameFrom => PendingClass.RenameFrom
  | .RenameTo => PendingClass.RenameTo
  | _ => PendingClass.Create

/-- Modelled from the spec: one entry of the per-path pending-state table —
the path, its most recent relevant classification, and the deadline
(last-activity-time + quiescence) at which it fires (spec §4.1). -/
structure Pending where
  path : FsPath
  cls : PendingClass
  deadline : Nat
deriving DecidableEq, Repr

/-- Modelled from the spec: the Debouncer/EventClassifier state — the pending
table (at most one entry per path, kept in insertion order) and the
arrival-adjacency correlation state: the path of the most recent pending
`RenameFrom`, if any (spec §4.2 correlation keying). -/
structure DState where
  pending : List Pending
  lastFrom : Option FsPath
deriving DecidableEq, Repr

/-- The empty debouncer state. -/
def DState.init : DState := ⟨[], none⟩

/-- Modelled from the spec: the LogicalEvent a firing pending entry emits
(spec §4.2): plain kinds map 1:1; an unmatched `RenameFrom` degrades to
Remove, an unmatched `RenameTo` to Create; a correlated pair emits Rename. -/
def classifyPending (p : FsPath) : PendingClass → LogicalEvent
  | PendingClass.Create => LogicalEvent.Create p
  | PendingClass.Write => LogicalEvent.Write p
  | PendingClass.Chmod => LogicalEvent.Chmod p
  | PendingClass.Remove => LogicalEvent.Remove p
  | PendingClass.RenameFrom => LogicalEvent.Remove p
  | PendingClass.RenameTo => LogicalEvent.Create p
  | PendingClass.RenamePair dest => LogicalEvent.Rename p dest

/-- Replace (or create) the pending entry for path `p` with classification
`c` and deadline `d`, keeping at most one entry per path (spec §4.1:
"updates/creates P's pending entry with the new kind and resets its
deadline"). -/
def upsert (p : FsPath) (c : PendingClass) (d : Nat) : List Pending → List Pending
  | [] => [⟨p, c, d⟩]
  | e :: rest => if e.path = p then upsert p c d rest else e :: upsert p c d rest

/-- Refresh the deadline of the pending entry for `p`, if one exists, without
changing its classification (spec §4.1: notice records "do not themselves
reset classification—only refresh the deadline"). -/
def refreshDeadline (p : FsPath) (d : Nat) (l : List Pending) : List Pending :=
  l.map fun e => if e.path = p then ⟨e.path, e.cls, d⟩ else e

/-- Emit every pending entry whose deadline has elapsed at time `t` (the
periodic deadline sweep of spec §4.1): returns the surviving state and the
emitted `(time, event)` pairs, each firing entry emitting at its deadline.
A fired `RenameFrom` can no longer be correlated, so the adjacency state is
cleared when it pointed at a fired entry. -/
def flushAt (t : Nat) (s : DState) : DState × List (Nat × LogicalEvent) :=
  let fired := s.pending.filter fun e => e.deadline ≤ t
  let kept := s.pending.filter fun e => ¬ e.deadline ≤ t
  let lastFrom := match s.lastFrom with
    | some a => if ∃ e ∈ fired, e.path = a then none else some a
    | none => none
  (⟨kept, lastFrom⟩, fired.map fun e => (e.deadline, classifyPending e.path e.cls))

/-- Modelled from the spec: processing of one raw record by the
Debouncer/EventClassifier (spec §4.1, §4.2).  First the deadline sweep runs
up to the record's time, then the record updates the state: notices refresh
the deadline only; plain kinds upsert their entry; a `RenameFrom` records
itself for adjacency correlation; a `RenameTo` merges with an
adjacency-correlated pending `RenameFrom` into a `RenamePair`, or becomes its
own entry; `Rescan` resets correlation state and emits nothing; `Error`
bypasses debouncing onto the error side channel.  The accumulator is
(state, emitted timed events, error side channel). -/
def stepRecord (q : Nat) (acc : DState × List (Nat × LogicalEvent) × List RawRecord)
    (r : RawRecord) : DState × List (Nat × LogicalEvent) × List RawRecord :=
  let s := acc.1
  let out := acc.2.1
  let errs := acc.2.2
  let swept := flushAt r.time s
  let s1 := swept.1
  let out := out ++ swept.2
  match r.kind with
  | RawKind.NoticeWrite =>
      (⟨refreshDeadline r.path (r.time + q) s1.pending, s1.lastFrom⟩, out, errs)
  | RawKind.NoticeRemove =>
      (⟨refreshDeadline r.path (r.time + q) s1.pending, s1.lastFrom⟩, out, errs)
  | RawKind.Create =>
      (⟨upsert r.path PendingClass.Create (r.time + q) s1.pending, s1.lastFrom⟩, out, errs)
  | RawKind.Write =>
      (⟨upsert r.path PendingClass.Write (r.time + q) s1.pending, s1.lastFrom⟩, out, errs)
  | RawKind.Chmod =>
      (⟨upsert r.path PendingClass.Chmod (r.time + q) s1.pending, s1.lastFrom⟩, out, errs)
  | RawKind.Remove =>
      (⟨upsert r.path PendingClass.Remove (r.time + q) s1.pending, s1.lastFrom⟩, out, errs)
  | RawKind.RenameFrom =>
      (⟨upsert r.path PendingClass.RenameFrom (r.time + q) s1.pending, some r.path⟩, out, errs)
  | RawKind.RenameTo =>
      match s1.lastFrom with
      | some a =>
          if ∃ e ∈ s1.pending, e.path = a ∧ e.cls = PendingClass.RenameFrom then
            (⟨upsert a (PendingClass.RenamePair r.path) (r.time + q) s1.pending, none⟩,
             out, errs)
          else
            (⟨upsert r.path PendingClass.RenameTo (r.time + q) s1.pending, none⟩, out, errs)
      | none =>
          (⟨upsert r.path PendingClass.RenameTo (r.time + q) s1.pending, none⟩, out, errs)
  | RawKind.Rescan => (⟨s1.pending, none⟩, out, errs)
  | RawKind.Error => (s1, out, errs ++ [r])

/-- Modelled from the spec: run the Debouncer/EventClassifier over a finite
trace of raw records (times nondecreasing), then let every remaining deadline
expire.  Returns the emitted `(time, LogicalEvent)` stream and the error side
channel. -/
def runDebouncer (q : Nat) (records : List RawRecord) :
    List (Nat × LogicalEvent) × List RawRecord :=
  let final := records.foldl (stepRecord q) (DState.init, [], [])
  (final.2.1 ++ final.1.pending.map (fun e => (e.deadline, classifyPending e.path e.cls)),
   final.2.2)

/-- The time of the last record of a trace, `t0` when the trace is empty. -/
def lastTime (t0 : Nat) (records : List RawRecord) : Nat :=
  records.foldl (fun _ r => r.time) t0

/-- The kind of the last record of a trace, `k0` when the trace is empty. -/
def lastRawKind (k0 : RawKind) (records : List RawRecord) : RawKind :=
  records.foldl (fun _ r => r.kind) k0

example :
    runDebouncer 100
      [⟨0, "/a", RawKind.Create, none, none⟩,
       ⟨20, "/a", RawKind.Write, none, none⟩,
       ⟨50, "/a", RawKind.Write, none, none⟩]
    = ([(150, LogicalEvent.Write "/a")], []) := by decide

example :
    runDebouncer 100
      [⟨0, "/a", RawKind.RenameFrom, none, none⟩,
       ⟨20, "/b", RawKind.RenameTo, none, none⟩]
    = ([(120, LogicalEvent.Rename "/a" "/b")], []) := by decide

example :
    runDebouncer 100 [⟨0, "/a", RawKind.RenameFrom, none, none⟩]
    = ([(100, LogicalEvent.Remove "/a")], []) := by decide

example :
    runDebouncer 100
      [⟨0, "/a", RawKind.RenameFrom, none, none⟩,
       ⟨150, "/b", RawKind.RenameTo, none, none⟩]
    = ([(100, LogicalEvent.Remove "/a"), (250, LogicalEvent.Create "/b")], []) := by decide

/-! ## Theorems about the main loop of `src/src/main.rs` -/

/-- Option-monad variant of the receive loop: a `none` result would model a
panic in some loop-body arm.  Used to state that no input sequence makes the
loop panic. -/
def mainLoopChecked (events_listened_for : List Events) :
    List DebouncedEvent → Option (List String × List String)
  | [] => some ([], [])
  | ev :: rest => do
      let out ← handleEvent events_listened_for ev
      let tail ← mainLoopChecked events_listened_for rest
      pure (out.1.toList ++ tail.1, out.2.toList ++ tail.2)

/-- Every loop-body arm returns a result: `handleEvent` is `some` on every
variant. -/
theorem handleEvent_eq_some (interested : List Events) (ev : DebouncedEvent) :
    handleEvent interested ev = some (processEvent interested ev) := by
  cases ev
  case Error e op => cases op <;> rfl
  all_goals rfl

/-- C1: for every logical event, the main loop emits it (as its rendered
notification line, unchanged by the filter) iff its kind is in the configured
list of interesting kinds; otherwise nothing at all is printed, on either
channel. -/
theorem kindFilter_emits_iff (interested : List Events) (e : LogicalEvent) :
    processEvent interested e.toDebounced
      = (if e.kind ∈ interested then some (render e) else none, none) := by
  cases e <;> rfl

/-- C4: the `all` sentinel expands to all five kinds, and whenever the
configured list contains every kind, the loop emits every logical event
(the filter is the identity on the event stream). -/
theorem all_kinds_pass_everything :
    parseOperations ["all"]
      = [Events.Create, Events.Write, Events.Chmod, Events.Remove, Events.Rename] ∧
    ∀ interested : List Events, (∀ k : Events, k ∈ interested) →
      ∀ e : LogicalEvent,
        processEvent interested e.toDebounced = (some (render e), none) := by
  refine ⟨rfl, ?_⟩
  intro interested h e
  cases e <;>
    simp [processEvent, handleEvent, LogicalEvent.toDebounced, render,
      h Events.Create, h Events.Write, h Events.Chmod, h Events.Remove, h Events.Rename]

/-- Witness for C4 at a concrete configuration and event. -/
theorem all_kinds_pass_everything_witness :
    processEvent [Events.Create, Events.Write, Events.Chmod, Events.Remove, Events.Rename]
        (LogicalEvent.Chmod "/a").toDebounced
      = (some (render (LogicalEvent.Chmod "/a")), none) :=
  all_kinds_pass_everything.2 _ (by decide) (LogicalEvent.Chmod "/a")

/-- C5: notice, rescan and error records never put anything on the
notification stream, for any configuration and any surrounding sequence;
error records go to the stderr side channel instead. -/
theorem non_reportables_never_emit (interested : List Events) (p : FsPath)
    (msg : String) (op : Option FsPath) (rest : List DebouncedEvent) :
    processEvent interested (DebouncedEvent.NoticeWrite p) = (none, none) ∧
    processEvent interested (DebouncedEvent.NoticeRemove p) = (none, none) ∧
    processEvent interested DebouncedEvent.Rescan = (none, none) ∧
    (processEvent interested (DebouncedEvent.Error msg op)).1 = none ∧
    (processEvent interested (DebouncedEvent.Error msg op)).2.isSome = true ∧
    (mainLoop interested (DebouncedEvent.NoticeWrite p :: rest)).1
      = (mainLoop interested rest).1 ∧
    (mainLoop interested (DebouncedEvent.NoticeRemove p :: rest)).1
      = (mainLoop interested rest).1 ∧
    (mainLoop interested (DebouncedEvent.Rescan :: rest)).1
      = (mainLoop interested rest).1 ∧
    (mainLoop interested (DebouncedEvent.Error msg op :: rest)).1
      = (mainLoop interested rest).1 := by
  cases op <;> simp [processEvent, handleEvent, mainLoop]

/-- C6: delivered events are rendered exactly as `<kind-lowercase> <primary>`
(resp. `rename <primary> => <secondary>`), and error records exactly as
`error: <message>` or `error at <path>: <message>`. -/
theorem rendering_convention (interested : List Events) (p f t : FsPath) (msg : String)
    (hc : Events.Create ∈ interested) (hw : Events.Write ∈ interested)
    (hh : Events.Chmod ∈ interested) (hr : Events.Remove ∈ interested)
    (hn : Events.Rename ∈ interested) :
    processEvent interested (DebouncedEvent.Create p) = (some ("create " ++ p), none) ∧
    processEvent interested (DebouncedEvent.Write p) = (some ("write " ++ p), none) ∧
    processEvent interested (DebouncedEvent.Chmod p) = (some ("chmod " ++ p), none) ∧
    processEvent interested (DebouncedEvent.Remove p) = (some ("remove " ++ p), none) ∧
    processEvent interested (DebouncedEvent.Rename f t)
      = (some ("rename " ++ f ++ " => " ++ t), none) ∧
    processEvent interested (DebouncedEvent.Error msg none)
      = (none, some ("error: " ++ msg)) ∧
    processEvent interested (DebouncedEvent.Error msg (some p))
      = (none, some ("error at " ++ p ++ ": " ++ msg)) := by
  simp [processEvent, handleEvent, hc, hw, hh, hr, hn]

/-- Witness for C6 at a concrete configuration, paths and message. -/
theorem rendering_convention_witness :
    processEvent [Events.Create, Events.Write, Events.Chmod, Events.Remove, Events.Rename]
        (DebouncedEvent.Create "/a") = (some ("create " ++ "/a"), none) ∧
    processEvent [Events.Create, Events.Write, Events.Chmod, Events.Remove, Events.Rename]
        (DebouncedEvent.Write "/a") = (some ("write " ++ "/a"), none) ∧
    processEvent [Events.Create, Events.Write, Events.Chmod, Events.Remove, Events.Rename]
        (DebouncedEvent.Chmod "/a") = (some ("chmod " ++ "/a"), none) ∧
    processEvent [Events.Create, Events.Write, Events.Chmod, Events.Remove, Events.Rename]
        (DebouncedEvent.Remove "/a") = (some ("remove " ++ "/a"), none) ∧
    processEvent [Events.Create, Events.Write, Events.Chmod, Events.Remove, Events.Rename]
        (DebouncedEvent.Rename "/a" "/b")
      = (some ("rename " ++ "/a" ++ " => " ++ "/b"), none) ∧
    processEvent [Events.Create, Events.Write, Events.Chmod, Events.Remove, Events.Rename]
        (DebouncedEvent.Error "disk full" none)
      = (none, some ("error: " ++ "disk full")) ∧
    processEvent [Events.Create, Events.Write, Events.Chmod, Events.Remove, Events.Rename]
        (DebouncedEvent.Error "disk full" (some "/a"))
      = (none, some ("error at " ++ "/a" ++ ": " ++ "disk full")) :=
  rendering_convention _ "/a" "/a" "/b" "disk full"
    (by decide) (by decide) (by decide) (by decide) (by decide)

/-- C7: when the input trace ends (the channel closes), the program exits
with status 1 (non-zero), its final stderr line is the fatal message
`Notify has crashed`, which is distinct from every per-record error line;
and a per-record error never stops the loop: the events after it are still
processed. -/
theorem fatal_on_stream_end (interested : List Events)
    (events rest : List DebouncedEvent) (msg : String) (op : Option FsPath) :
    (runMain interested events).2.2 = 1 ∧
    (runMain interested events).2.2 ≠ 0 ∧
    (runMain interested events).2.1.getLast? = some "Notify has crashed" ∧
    (∀ ev : DebouncedEvent, ∀ s : String,
      (processEvent interested ev).2 = some s → s ≠ "Notify has crashed") ∧
    (mainLoop interested (DebouncedEvent.Error msg op :: rest)).1
      = (mainLoop interested rest).1 ∧
    (mainLoop interested (DebouncedEvent.Error msg op :: rest)).2
      = (processEvent interested (DebouncedEvent.Error msg op)).2.toList
        ++ (mainLoop interested rest).2 := by
  refine ⟨rfl, by simp [runMain], ?_, ?_, ?_, ?_⟩
  · simp [runMain]
  · intro ev s hs
    cases ev with
    | Error e o =>
        cases o with
        | none =>
            simp [processEvent, handleEvent] at hs
            subst hs
            intro h
            have h2 : ("error: " ++ e).data
                = ("Notify has crashed" : String).data := by rw [h]
            rw [String.data_append] at h2
            simp [String.data] at h2
        | some pa =>
            simp [processEvent, handleEvent] at hs
            subst hs
            intro h
            have h2 : ("error at " ++ pa ++ ": " ++ e).data
                = ("Notify has crashed" : String).data := by rw [h]
            simp only [String.data_append] at h2
            simp [String.data] at h2
    | Create p => simp [processEvent, handleEvent] at hs
    | Write p => simp [processEvent, handleEvent] at hs
    | Chmod p => simp [processEvent, handleEvent] at hs
    | Remove p => simp [processEvent, handleEvent] at hs
    | Rename f t => simp [processEvent, handleEvent] at hs
    | NoticeWrite p => simp [processEvent, handleEvent] at hs
    | NoticeRemove p => simp [processEvent, handleEvent] at hs
    | Rescan => simp [processEvent, handleEvent] at hs
  · cases op <;> simp [mainLoop, processEvent, handleEvent]
  · cases op <;> simp [mainLoop, processEvent, handleEvent]

/-- C8: every raw record variant is covered by a handling arm (`handleEvent`
is `some` on every input), and consequently no input sequence makes the loop
fail: the checked loop succeeds on every trace with exactly the output of
the main loop. -/
theorem loop_total_no_panic (interested : List Events) (ev : DebouncedEvent)
    (events : List DebouncedEvent) :
    (handleEvent interested ev).isSome = true ∧
    mainLoopChecked interested events = some (mainLoop interested events) := by
  constructor
  · rw [handleEvent_eq_some]; rfl
  · induction events with
    | nil => rfl
    | cons e rest ih =>
        simp [mainLoopChecked, mainLoop, handleEvent_eq_some, ih]

/-- C9: the loop's behaviour on each event depends only on the set of kinds
in the configured list, not on their order or multiplicity: two lists
containing the same kinds produce identical output for every event. -/
theorem filter_depends_only_on_kind_set (l1 l2 : List Events)
    (h : ∀ k : Events, k ∈ l1 ↔ k ∈ l2) (ev : DebouncedEvent) :
    processEvent l1 ev = processEvent l2 ev := by
  cases ev <;> simp [processEvent, handleEvent, h]

/-- Witness for C9: a duplicated configuration list filters like its
deduplication. -/
theorem filter_depends_only_on_kind_set_witness :
    processEvent [Events.Write, Events.Write, Events.Create]
        (DebouncedEvent.Create "/a")
      = processEvent [Events.Create, Events.Write] (DebouncedEvent.Create "/a") :=
  filter_depends_only_on_kind_set _ _ (by decide) _

/-- C10: one received record prints at most one line — never one on each
channel, and never two on one channel — so over any trace the total number
of printed lines is at most the number of records. -/
theorem at_most_one_line_per_record (interested : List Events)
    (ev : DebouncedEvent) (events : List DebouncedEvent) :
    ((processEvent interested ev).1 = none ∨ (processEvent interested ev).2 = none) ∧
    (processEvent interested ev).1.toList.length
      + (processEvent interested ev).2.toList.length ≤ 1 ∧
    (mainLoop interested events).1.length + (mainLoop interested events).2.length
      ≤ events.length := by
  have h2 : ∀ e : DebouncedEvent, (processEvent interested e).1.toList.length
      + (processEvent interested e).2.toList.length ≤ 1 := by
    intro e
    cases e
    case Error m o => cases o <;> simp [processEvent, handleEvent]
    all_goals simp [processEvent, handleEvent]
    all_goals split <;> simp
  refine ⟨?_, h2 ev, ?_⟩
  · cases ev
    case Error m o => cases o <;> simp [processEvent, handleEvent]
    all_goals simp [processEvent, handleEvent]
  · induction events with
    | nil => simp [mainLoop]
    | cons e rest ih =>
        have he := h2 e
        simp only [mainLoop, List.length_append, List.length_cons]
        omega

/-! ## Theorems about the spec-modelled debouncing pipeline -/

/-- Folding the new-deadline update commutes with adding the quiescence to
the last-seen time. -/
theorem foldl_deadline_eq (q : Nat) :
    ∀ (rs : List RawRecord) (t : Nat),
      rs.foldl (fun _ r => r.time + q) (t + q)
        = rs.foldl (fun _ r => r.time) t + q
  | [], _ => rfl
  | r :: rs, _ => by
      rw [List.foldl_cons, List.foldl_cons]
      exact foldl_deadline_eq q rs r.time

/-- Folding the classification update commutes with taking the last-seen raw
kind. -/
theorem foldl_class_eq :
    ∀ (rs : List RawRecord) (k : RawKind),
      rs.foldl (fun _ r => plainClass r.kind) (plainClass k)
        = plainClass (rs.foldl (fun _ r => r.kind) k)
  | [], _ => rfl
  | r :: rs, _ => by
      rw [List.foldl_cons, List.foldl_cons]
      exact foldl_class_eq rs r.kind

/-- Key invariant of the debouncer on a single-path burst: starting from a
table holding exactly one entry for path `P` whose deadline has not yet been
reached by any record of the burst, a sequence of plain-kind records for `P`,
each arriving before the previous deadline, keeps the table at exactly that
one entry — carrying the last-seen kind and the deadline
last-record-time + quiescence — and emits nothing. -/
theorem debounce_burst_invariant (q : Nat) (P : FsPath) :
    ∀ (rs : List RawRecord) (c0 : PendingClass) (d0 : Nat)
      (out : List (Nat × LogicalEvent)) (errs : List RawRecord),
      (∀ r ∈ rs, r.path = P) →
      (∀ r ∈ rs, r.kind.isPlain) →
      (∀ r ∈ rs, r.time < d0) →
      (∀ r ∈ rs, d0 ≤ r.time + q) →
      rs.Pairwise (fun a b => a.time ≤ b.time) →
      rs.foldl (stepRecord q) (⟨[⟨P, c0, d0⟩], none⟩, out, errs)
        = (⟨[⟨P, rs.foldl (fun _ r => plainClass r.kind) c0,
              rs.foldl (fun _ r => r.time + q) d0⟩], none⟩, out, errs) := by
  intro rs
  induction rs with
  | nil => intro c0 d0 out errs _ _ _ _ _; rfl
  | cons r rest ih =>
      intro c0 d0 out errs hpath hplain hlt hge hpw
      have hrP : r.path = P := hpath r (List.mem_cons_self r rest)
      have hrlt : r.time < d0 := hlt r (List.mem_cons_self r rest)
      have hrge : d0 ≤ r.time + q := hge r (List.mem_cons_self r rest)
      have hplainr : r.kind.isPlain := hplain r (List.mem_cons_self r rest)
      have hnofire : ¬ d0 ≤ r.time := by omega
      have hstep : stepRecord q (⟨[⟨P, c0, d0⟩], none⟩, out, errs) r
          = (⟨[⟨P, plainClass r.kind, r.time + q⟩], none⟩, out, errs) := by
        cases hk : r.kind <;>
          simp [RawKind.isPlain, hk] at hplainr <;>
          simp [stepRecord, flushAt, upsert, plainClass, hk, hrP, hnofire, hrlt]
      have hhead : ∀ r2 ∈ rest, r.time ≤ r2.time := by
        intro r2 hr2
        exact (List.pairwise_cons.mp hpw).1 r2 hr2
      rw [List.foldl_cons, hstep,
        ih (plainClass r.kind) (r.time + q) out errs
          (fun r2 h => hpath r2 (List.mem_cons_of_mem r h))
          (fun r2 h => hplain r2 (List.mem_cons_of_mem r h))
          (fun r2 h => lt_of_lt_of_le (hlt r2 (List.mem_cons_of_mem r h)) hrge)
          (fun r2 h => Nat.add_le_add_right (hhead r2 h) q)
          (List.pairwise_cons.mp hpw).2]
      simp only [List.foldl_cons]

/-- C2: a path receiving a burst of plain-kind raw records, all within a
window smaller than the quiescence duration, yields exactly one confirmed
logical event — of the last-seen kind, at the last record's time plus the
quiescence — and nothing on the error channel. -/
theorem debouncer_single_confirmed_event (q : Nat) (r0 : RawRecord)
    (rest : List RawRecord)
    (hpath : ∀ r ∈ r0 :: rest, r.path = r0.path)
    (hplain : ∀ r ∈ r0 :: rest, r.kind.isPlain)
    (hspan : ∀ r ∈ r0 :: rest, r.time < r0.time + q)
    (hsorted : (r0 :: rest).Pairwise (fun a b => a.time ≤ b.time)) :
    runDebouncer q (r0 :: rest)
      = ([(lastTime r0.time rest + q,
           classifyPending r0.path (plainClass (lastRawKind r0.kind rest)))], []) ∧
    ∀ te ∈ (runDebouncer q (r0 :: rest)).1, lastTime r0.time rest + q ≤ te.1 := by
  have hplain0 : r0.kind.isPlain := hplain r0 (List.mem_cons_self r0 rest)
  have hstep0 : stepRecord q (DState.init, [], []) r0
      = (⟨[⟨r0.path, plainClass r0.kind, r0.time + q⟩], none⟩, [], []) := by
    cases hk : r0.kind <;>
      simp [RawKind.isPlain, hk] at hplain0 <;>
      simp [stepRecord, flushAt, upsert, plainClass, DState.init, hk]
  have hhead : ∀ r2 ∈ rest, r0.time ≤ r2.time := by
    intro r2 hr2
    exact (List.pairwise_cons.mp hsorted).1 r2 hr2
  have hrun : runDebouncer q (r0 :: rest)
      = ([(lastTime r0.time rest + q,
           classifyPending r0.path (plainClass (lastRawKind r0.kind rest)))], []) := by
    rw [runDebouncer, List.foldl_cons, hstep0,
      debounce_burst_invariant q r0.path rest (plainClass r0.kind) (r0.time + q) [] []
        (fun r2 h => hpath r2 (List.mem_cons_of_mem r0 h))
        (fun r2 h => hplain r2 (List.mem_cons_of_mem r0 h))
        (fun r2 h => hspan r2 (List.mem_cons_of_mem r0 h))
        (fun r2 h => Nat.add_le_add_right (hhead r2 h) q)
        (List.pairwise_cons.mp hsorted).2]
    simp [lastTime, lastRawKind, foldl_deadline_eq, foldl_class_eq]
  refine ⟨hrun, ?_⟩
  rw [hrun]
  intro te hte
  simp at hte
  simp [hte]

/-- Witness for C2: the spec's concrete scenario — quiescence 100ms,
Create(/a) at t=0, Write(/a) at t=20, Write(/a) at t=50 — gives exactly one
Write event for /a at t=150. -/
theorem debouncer_single_confirmed_event_witness :
    runDebouncer 100
        [⟨0, "/a", RawKind.Create, none, none⟩,
         ⟨20, "/a", RawKind.Write, none, none⟩,
         ⟨50, "/a", RawKind.Write, none, none⟩]
      = ([(150, LogicalEvent.Write "/a")], []) ∧
    ∀ te ∈ (runDebouncer 100
        [⟨0, "/a", RawKind.Create, none, none⟩,
         ⟨20, "/a", RawKind.Write, none, none⟩,
         ⟨50, "/a", RawKind.Write, none, none⟩]).1, 150 ≤ te.1 :=
  debouncer_single_confirmed_event 100 ⟨0, "/a", RawKind.Create, none, none⟩
    [⟨20, "/a", RawKind.Write, none, none⟩, ⟨50, "/a", RawKind.Write, none, none⟩]
    (by decide) (by decide) (by decide) (by decide)

/-- C3: a `RenameFrom(A)` followed within the quiescence window by its
correlated `RenameTo(B)` yields exactly one logical event — Rename with
primary A and secondary B — and no Create or Remove for A or B; a lone
`RenameFrom(A)` degrades after window expiry to exactly one Remove for A; a
lone `RenameTo(B)` degrades to exactly one Create for B; and a `RenameTo(B)`
arriving only after the window expired pairs with nothing: the orphaned
halves degrade to Remove(A) then Create(B). -/
theorem rename_correlation (q t0 t1 t2 : Nat) (A B : FsPath)
    (_h01 : t0 ≤ t1) (hwin : t1 < t0 + q) (hexp : t0 + q ≤ t2) :
    runDebouncer q [⟨t0, A, RawKind.RenameFrom, some B, none⟩,
                    ⟨t1, B, RawKind.RenameTo, none, none⟩]
      = ([(t1 + q, LogicalEvent.Rename A B)], []) ∧
    runDebouncer q [⟨t0, A, RawKind.RenameFrom, some B, none⟩]
      = ([(t0 + q, LogicalEvent.Remove A)], []) ∧
    runDebouncer q [⟨t0, B, RawKind.RenameTo, none, none⟩]
      = ([(t0 + q, LogicalEvent.Create B)], []) ∧
    runDebouncer q [⟨t0, A, RawKind.RenameFrom, some B, none⟩,
                    ⟨t2, B, RawKind.RenameTo, none, none⟩]
      = ([(t0 + q, LogicalEvent.Remove A), (t2 + q, LogicalEvent.Create B)], []) := by
  have hno : ¬ t0 + q ≤ t1 := by omega
  have hlt : t1 < t0 + q := hwin
  refine ⟨?_, ?_, ?_, ?_⟩
  · simp [runDebouncer, stepRecord, flushAt, upsert, DState.init, classifyPending,
      hno, hlt]
  · simp [runDebouncer, stepRecord, flushAt, upsert, DState.init, classifyPending]
  · simp [runDebouncer, stepRecord, flushAt, upsert, DState.init, classifyPending]
  · simp [runDebouncer, stepRecord, flushAt, upsert, DState.init, classifyPending,
      hexp]

/-- Witness for C3 at concrete times and paths: quiescence 100ms, rename
half-pairs at t=0 and t=20 (matched) and at t=0 and t=150 (expired). -/
theorem rename_correlation_witness :
    runDebouncer 100 [⟨0, "/a", RawKind.RenameFrom, some "/b", none⟩,
                      ⟨20, "/b", RawKind.RenameTo, none, none⟩]
      = ([(120, LogicalEvent.Rename "/a" "/b")], []) ∧
    runDebouncer 100 [⟨0, "/a", RawKind.RenameFrom, some "/b", none⟩]
      = ([(100, LogicalEvent.Remove "/a")], []) ∧
    runDebouncer 100 [⟨0, "/b", RawKind.RenameTo, none, none⟩]
      = ([(100, LogicalEvent.Create "/b")], []) ∧
    runDebouncer 100 [⟨0, "/a", RawKind.RenameFrom, some "/b", none⟩,
                      ⟨150, "/b", RawKind.RenameTo, none, none⟩]
      = ([(100, LogicalEvent.Remove "/a"), (250, LogicalEvent.Create "/b")], []) :=
  rename_correlation 100 0 20 150 "/a" "/b" (by decide) (by decide) (by decide)
